import Mathlib

/-!
Shallow embedding of the motion-to-note mapper of
`src/MPU_SEM_OSC/ESP32_MPU_BUZZER_SIMPLE/src/main.cpp`.

The two voices' mutable `struct note` globals (`melodyCurrentNote`,
`bassCurrentNote`) become an explicit state record; the Arduino
`random(lo, hi)` primitive (uniform on `[lo, hi)`, implemented as
`lo + raw % (hi - lo)`) becomes `randomIn lo hi r` where `r` is the raw
pseudo-random draw, quantified over in the theorems; C++ `float` inputs
become rationals (the thresholds 0.5, 0.75, 3, 4 are all exactly
representable, so strict/non-strict comparisons coincide with the
float program on its domain).
-/

namespace MpuBuzzer

/-- `struct note` of main.cpp (pitch, octave, duration, is_playing). -/
structure Note where
  pitch : Int
  octave : Int
  duration : Int
  is_playing : Bool
deriving Repr, DecidableEq

/-- The two persistent voice records (`melodyCurrentNote`, `bassCurrentNote`). -/
structure MachineState where
  melodyCurrentNote : Note
  bassCurrentNote : Note
deriving Repr, DecidableEq

/-- `int noteDuration[]` — the fixed 20-entry duration table (main.cpp line 44). -/
def noteDuration : List Int :=
  [125, 125, 125, 125, 125, 125, 125, 125, 250, 250, 250, 250,
   500, 500, 500, 500, 1000, 1000, 1000, 1500]

/-- Arduino `random(lo, hi)`: uniform on `[lo, hi)`; `r` is the raw draw of
the underlying generator, reduced as `lo + r % (hi - lo)` exactly as the
Arduino core does (`random(hi - lo)` is `raw % (hi - lo)` shifted by `lo`). -/
def randomIn (lo hi r : Nat) : Nat :=
  if hi ≤ lo then lo else lo + r % (hi - lo)

/-- `defineNoteDuration` (main.cpp lines 71–75): band selection on `totalAcc`
with strict comparisons, then a random index into the duration table. -/
def defineNoteDuration (totalAcc : ℚ) (r : Nat) : Int :=
  if totalAcc > 1/2 ∧ totalAcc < 3/4 then noteDuration.getD (randomIn 18 19 r) 0
  else if totalAcc > 3/4 ∧ totalAcc < 3 then noteDuration.getD (randomIn 10 18 r) 0
  else noteDuration.getD (randomIn 0 10 r) 0

/-- Iteration engine for the `while (pitch > 6) pitch -= 3;` loop of
`defineMelodyNote` (main.cpp line 101); the first argument is an iteration
budget, large enough whenever it is at least `p.toNat`
(see `rectifyLoop_eq`, which recovers the budget-free loop recurrence). -/
def rectifyLoopAux : Nat → Int → Int
  | 0, p => p
  | n + 1, p => if p > 6 then rectifyLoopAux n (p - 3) else p

/-- The `while (pitch > 6) pitch -= 3;` loop of `defineMelodyNote`
(main.cpp line 101). -/
def rectifyLoop (p : Int) : Int :=
  rectifyLoopAux p.toNat p

/-- Pitch rectification of `defineMelodyNote` (main.cpp lines 100–101):
`if (pitch < 0) pitch = abs(pitch); while (pitch > 6) pitch -= 3;`. -/
def rectifyPitch (p : Int) : Int :=
  rectifyLoop (if p < 0 then -p else p)

/-- Octave walk-and-wrap of `defineMelodyNote` (main.cpp lines 91–95):
`±1` on the `totalAcc < 3` / `totalAcc >= 3` guards, then the asymmetric
wrap `< 0 → 5`, `> 5 → 2`. -/
def melodyOctaveStep (octave : Int) (totalAcc : ℚ) : Int :=
  let o1 := if totalAcc < 3 then octave - 1 else octave
  let o2 := if totalAcc ≥ 3 then o1 + 1 else o1
  let o3 := if o2 < 0 then 5 else o2
  if o3 > 5 then 2 else o3

/-- Octave walk-and-wrap of `defineBassNote` (main.cpp lines 132–136):
`±1` on the `totalSpin < 3` / `totalSpin >= 3` guards, then the asymmetric
wrap `< 0 → 2`, `> 5 → 0`. -/
def bassOctaveStep (octave : Int) (totalSpin : ℚ) : Int :=
  let o1 := if totalSpin < 3 then octave - 1 else octave
  let o2 := if totalSpin ≥ 3 then o1 + 1 else o1
  let o3 := if o2 < 0 then 2 else o2
  if o3 > 5 then 0 else o3

/-- `defineMelodyNote` (main.cpp lines 87–111). `r1`, `r2` are the raw draws
of the two `random(0, 6)` calls (lines 97–98), `rd` the draw inside
`defineNoteDuration`. -/
def defineMelodyNote (s : MachineState) (totalAcc totalSpin : ℚ)
    (r1 r2 rd : Nat) : MachineState :=
  let octave := melodyOctaveStep s.melodyCurrentNote.octave totalAcc
  let pitch0 := s.melodyCurrentNote.pitch
  let pitch1 := if totalSpin < 3 then pitch0 - (randomIn 0 6 r1 : Int) else pitch0
  let pitch2 := if totalSpin > 4 then pitch1 + (randomIn 0 6 r2 : Int) else pitch1
  let m := { s.melodyCurrentNote with
              pitch := rectifyPitch pitch2
              octave := octave
              duration := defineNoteDuration totalAcc rd }
  let m2 := if totalAcc < 1/2 ∨ totalSpin < 1/2
            then { m with pitch := 7, duration := 50 } else m
  { s with melodyCurrentNote := m2 }

/-- `int harmonics[8][3]` of `defineBassNote` (main.cpp lines 126–128). -/
def harmonics : List (List Int) :=
  [[2, 4, 6], [3, 5, 0], [4, 6, 1],
   [5, 0, 2], [6, 1, 3], [0, 2, 4],
   [1, 3, 5], [0, 2, 4]]

/-- `defineBassNote` (main.cpp lines 125–146). `rp` is the raw draw of the
`random(0, 2)` call on line 138, `rd` the draw inside `defineNoteDuration`. -/
def defineBassNote (s : MachineState) (totalAcc totalSpin : ℚ)
    (rp rd : Nat) : MachineState :=
  let octave := bassOctaveStep s.bassCurrentNote.octave totalSpin
  let b := { s.bassCurrentNote with
              pitch := (harmonics.getD s.melodyCurrentNote.pitch.toNat []).getD
                         (randomIn 0 2 rp) 0
              octave := octave
              duration := defineNoteDuration totalAcc rd * 2 }
  let b2 := if totalAcc < 1/2 ∨ totalSpin < 1/2
            then { b with pitch := 7, duration := 50 } else b
  { s with bassCurrentNote := b2 }

/-! ### Loop recurrence and bounds for the pitch-rectification loop -/

/-- Once the loop guard `p > 6` fails, the loop exits with `p`
whatever the iteration budget. -/
theorem rectifyLoopAux_of_le (n : Nat) (p : Int) (h : ¬ p > 6) :
    rectifyLoopAux n p = p := by
  cases n <;> simp [rectifyLoopAux, h]

/-- Any two sufficient budgets compute the same loop result. -/
theorem rectifyLoopAux_irrel (n : Nat) :
    ∀ m (p : Int), p.toNat ≤ n → p.toNat ≤ m →
      rectifyLoopAux n p = rectifyLoopAux m p := by
  induction n with
  | zero =>
    intro m p hn _
    have h : ¬ p > 6 := by omega
    rw [rectifyLoopAux_of_le _ _ h, rectifyLoopAux_of_le _ _ h]
  | succ n ih =>
    intro m p hn hm
    by_cases h : p > 6
    · obtain ⟨m', rfl⟩ : ∃ m', m = m' + 1 := ⟨m - 1, by omega⟩
      simp only [rectifyLoopAux, if_pos h]
      exact ih m' (p - 3) (by omega) (by omega)
    · rw [rectifyLoopAux_of_le _ _ h, rectifyLoopAux_of_le _ _ h]

/-- `rectifyLoop` satisfies exactly the recurrence of the source's
`while (pitch > 6) pitch -= 3;` loop: the budget `p.toNat` always
suffices, so the embedded loop is the (terminating) while loop. -/
theorem rectifyLoop_eq (p : Int) :
    rectifyLoop p = if p > 6 then rectifyLoop (p - 3) else p := by
  by_cases h : p > 6
  · rw [if_pos h]
    unfold rectifyLoop
    obtain ⟨k, hk⟩ : ∃ k, p.toNat = k + 1 := ⟨p.toNat - 1, by omega⟩
    rw [hk]
    simp only [rectifyLoopAux, if_pos h]
    exact rectifyLoopAux_irrel k ((p - 3).toNat) (p - 3) (by omega) (le_refl _)
  · rw [if_neg h]
    exact rectifyLoopAux_of_le _ _ h

/-- For a non-negative start the loop lands in `[0, 6]`. -/
theorem rectifyLoop_bounds (p : Int) (hp : 0 ≤ p) :
    0 ≤ rectifyLoop p ∧ rectifyLoop p ≤ 6 := by
  by_cases h : p > 6
  · rw [rectifyLoop_eq, if_pos h]
    exact rectifyLoop_bounds (p - 3) (by omega)
  · rw [rectifyLoop_eq, if_neg h]
    omega
termination_by p.toNat
decreasing_by
  omega

/-- Full rectification (absolute value, then the loop) lands in `[0, 6]`
from any integer start. -/
theorem rectifyPitch_bounds (p : Int) :
    0 ≤ rectifyPitch p ∧ rectifyPitch p ≤ 6 := by
  unfold rectifyPitch
  apply rectifyLoop_bounds
  split_ifs with h <;> omega

/-! ### Helper lemmas on the random draw and the duration table -/

/-- `randomIn lo hi` always lands in `[lo, hi)` when the range is non-empty. -/
theorem randomIn_bounds (lo hi r : Nat) (h : lo < hi) :
    lo ≤ randomIn lo hi r ∧ randomIn lo hi r < hi := by
  unfold randomIn
  rw [if_neg (by omega)]
  have := Nat.mod_lt r (y := hi - lo) (by omega)
  omega

/-- Any in-range default-read of the duration table is a table entry. -/
theorem noteDuration_getD_mem (i : Nat) (h : i < 20) :
    noteDuration.getD i 0 ∈ noteDuration := by
  interval_cases i <;> decide

/-- The duration helper always returns a table entry, whatever the band. -/
theorem defineNoteDuration_mem (totalAcc : ℚ) (r : Nat) :
    defineNoteDuration totalAcc r ∈ noteDuration := by
  unfold defineNoteDuration
  split_ifs with h1 h2
  · exact noteDuration_getD_mem _
      (by have := randomIn_bounds 18 19 r (by omega); omega)
  · exact noteDuration_getD_mem _
      (by have := randomIn_bounds 10 18 r (by omega); omega)
  · exact noteDuration_getD_mem _
      (by have := randomIn_bounds 0 10 r (by omega); omega)

/-- When the near-stillness guard fires, the melody note's pitch and
duration are forced to `7` and `50`. -/
theorem defineMelodyNote_silenced (s : MachineState) (totalAcc totalSpin : ℚ)
    (r1 r2 rd : Nat) (h : totalAcc < 1/2 ∨ totalSpin < 1/2) :
    (defineMelodyNote s totalAcc totalSpin r1 r2 rd).melodyCurrentNote.pitch = 7 ∧
    (defineMelodyNote s totalAcc totalSpin r1 r2 rd).melodyCurrentNote.duration = 50 := by
  simp only [defineMelodyNote, if_pos h]
  simp

/-- When the near-stillness guard fires, the bass note's pitch and
duration are forced to `7` and `50`. -/
theorem defineBassNote_silenced (s : MachineState) (totalAcc totalSpin : ℚ)
    (rp rd : Nat) (h : totalAcc < 1/2 ∨ totalSpin < 1/2) :
    (defineBassNote s totalAcc totalSpin rp rd).bassCurrentNote.pitch = 7 ∧
    (defineBassNote s totalAcc totalSpin rp rd).bassCurrentNote.duration = 50 := by
  simp only [defineBassNote, if_pos h]
  simp

/-- When the near-stillness guard does not fire, the melody pitch is the
rectification of the jittered previous pitch. -/
theorem defineMelodyNote_pitch_not_silenced (s : MachineState)
    (totalAcc totalSpin : ℚ) (r1 r2 rd : Nat)
    (hns : ¬ (totalAcc < 1/2 ∨ totalSpin < 1/2)) :
    (defineMelodyNote s totalAcc totalSpin r1 r2 rd).melodyCurrentNote.pitch =
      rectifyPitch
        (if totalSpin > 4 then
          (if totalSpin < 3 then
            s.melodyCurrentNote.pitch - (randomIn 0 6 r1 : Int)
          else s.melodyCurrentNote.pitch) + (randomIn 0 6 r2 : Int)
        else
          (if totalSpin < 3 then
            s.melodyCurrentNote.pitch - (randomIn 0 6 r1 : Int)
          else s.melodyCurrentNote.pitch)) := by
  simp only [defineMelodyNote, if_neg hns]

/-- When the near-stillness guard does not fire, the melody duration is the
value of the duration helper. -/
theorem defineMelodyNote_duration_not_silenced (s : MachineState)
    (totalAcc totalSpin : ℚ) (r1 r2 rd : Nat)
    (hns : ¬ (totalAcc < 1/2 ∨ totalSpin < 1/2)) :
    (defineMelodyNote s totalAcc totalSpin r1 r2 rd).melodyCurrentNote.duration =
      defineNoteDuration totalAcc rd := by
  simp only [defineMelodyNote, if_neg hns]

/-- When the near-stillness guard does not fire, the bass pitch is the
harmonic-table entry at the melody pitch's row and column `rp % 2`. -/
theorem defineBassNote_pitch_not_silenced (s : MachineState)
    (totalAcc totalSpin : ℚ) (rp rd : Nat)
    (hns : ¬ (totalAcc < 1/2 ∨ totalSpin < 1/2)) :
    (defineBassNote s totalAcc totalSpin rp rd).bassCurrentNote.pitch =
      (harmonics.getD s.melodyCurrentNote.pitch.toNat []).getD (rp % 2) 0 := by
  simp only [defineBassNote, if_neg hns, randomIn]
  norm_num

/-- When the near-stillness guard does not fire, the bass duration is the
doubled value of the duration helper. -/
theorem defineBassNote_duration_not_silenced (s : MachineState)
    (totalAcc totalSpin : ℚ) (rp rd : Nat)
    (hns : ¬ (totalAcc < 1/2 ∨ totalSpin < 1/2)) :
    (defineBassNote s totalAcc totalSpin rp rd).bassCurrentNote.duration =
      defineNoteDuration totalAcc rd * 2 := by
  simp only [defineBassNote, if_neg hns]

/-- The melody octave is always the walk-and-wrap of the previous melody
octave, silenced or not. -/
theorem defineMelodyNote_octave (s : MachineState) (totalAcc totalSpin : ℚ)
    (r1 r2 rd : Nat) :
    (defineMelodyNote s totalAcc totalSpin r1 r2 rd).melodyCurrentNote.octave =
      melodyOctaveStep s.melodyCurrentNote.octave totalAcc := by
  simp only [defineMelodyNote]
  split_ifs <;> rfl

/-- The bass octave is always the walk-and-wrap of the previous bass
octave, silenced or not. -/
theorem defineBassNote_octave (s : MachineState) (totalAcc totalSpin : ℚ)
    (rp rd : Nat) :
    (defineBassNote s totalAcc totalSpin rp rd).bassCurrentNote.octave =
      bassOctaveStep s.bassCurrentNote.octave totalSpin := by
  simp only [defineBassNote]
  split_ifs <;> rfl

/-- The melody walk-and-wrap keeps the octave in `[0, 5]`. -/
theorem melodyOctaveStep_range (octave : Int) (totalAcc : ℚ)
    (h0 : 0 ≤ octave) (h5 : octave ≤ 5) :
    0 ≤ melodyOctaveStep octave totalAcc ∧ melodyOctaveStep octave totalAcc ≤ 5 := by
  simp only [melodyOctaveStep]
  split_ifs <;> omega

/-- The bass walk-and-wrap keeps the octave in `[0, 5]`. -/
theorem bassOctaveStep_range (octave : Int) (totalSpin : ℚ)
    (h0 : 0 ≤ octave) (h5 : octave ≤ 5) :
    0 ≤ bassOctaveStep octave totalSpin ∧ bassOctaveStep octave totalSpin ≤ 5 := by
  simp only [bassOctaveStep]
  split_ifs <;> omega

/-- The melody walk-and-wrap never leaves the octave unchanged when it
starts in range: exactly one of the two guards fires, the octave moves
by one, and the wrap stays away from the start. -/
theorem melodyOctaveStep_ne (octave : Int) (totalAcc : ℚ)
    (h0 : 0 ≤ octave) (h5 : octave ≤ 5) :
    melodyOctaveStep octave totalAcc ≠ octave := by
  simp only [melodyOctaveStep, ge_iff_le]
  rcases lt_or_ge totalAcc 3 with h | h
  · simp only [if_pos h, if_neg (not_le.mpr h)]
    split_ifs <;> omega
  · have h' : (3 : ℚ) ≤ totalAcc := h
    simp only [if_neg (not_lt.mpr h'), if_pos h']
    split_ifs <;> omega

/-- The bass walk-and-wrap never leaves the octave unchanged when it
starts in range. -/
theorem bassOctaveStep_ne (octave : Int) (totalSpin : ℚ)
    (h0 : 0 ≤ octave) (h5 : octave ≤ 5) :
    bassOctaveStep octave totalSpin ≠ octave := by
  simp only [bassOctaveStep, ge_iff_le]
  rcases lt_or_ge totalSpin 3 with h | h
  · simp only [if_pos h, if_neg (not_le.mpr h)]
    split_ifs <;> omega
  · have h' : (3 : ℚ) ≤ totalSpin := h
    simp only [if_neg (not_lt.mpr h'), if_pos h']
    split_ifs <;> omega

/-! ### Claim theorems -/

/-- C1: whenever `totalAcc < 0.5` or `totalSpin < 0.5`, both
`defineMelodyNote` and `defineBassNote` leave their voice's note with
`pitch = 7` and `duration = 50`, for every prior state and every random
outcome. -/
theorem nearStillness_override (s : MachineState) (totalAcc totalSpin : ℚ)
    (r1 r2 rp rd rd' : Nat)
    (h : totalAcc < 1/2 ∨ totalSpin < 1/2) :
    ((defineMelodyNote s totalAcc totalSpin r1 r2 rd).melodyCurrentNote.pitch = 7 ∧
     (defineMelodyNote s totalAcc totalSpin r1 r2 rd).melodyCurrentNote.duration = 50) ∧
    ((defineBassNote s totalAcc totalSpin rp rd').bassCurrentNote.pitch = 7 ∧
     (defineBassNote s totalAcc totalSpin rp rd').bassCurrentNote.duration = 50) := by
  simp only [defineMelodyNote, defineBassNote, if_pos h]
  simp

/-- C1 witness: concrete near-still input `totalAcc = 0`, `totalSpin = 0`. -/
theorem nearStillness_override_witness :
    ((defineMelodyNote ⟨⟨0, 3, 0, false⟩, ⟨0, 0, 0, false⟩⟩ 0 0 0 0 0).melodyCurrentNote.pitch = 7 ∧
     (defineMelodyNote ⟨⟨0, 3, 0, false⟩, ⟨0, 0, 0, false⟩⟩ 0 0 0 0 0).melodyCurrentNote.duration = 50) ∧
    ((defineBassNote ⟨⟨0, 3, 0, false⟩, ⟨0, 0, 0, false⟩⟩ 0 0 0 0).bassCurrentNote.pitch = 7 ∧
     (defineBassNote ⟨⟨0, 3, 0, false⟩, ⟨0, 0, 0, false⟩⟩ 0 0 0 0).bassCurrentNote.duration = 50) :=
  nearStillness_override ⟨⟨0, 3, 0, false⟩, ⟨0, 0, 0, false⟩⟩ 0 0 0 0 0 0 0
    (Or.inl (by norm_num))

/-- C2: for every `totalAcc ≥ 0` and every random outcome,
`defineNoteDuration` returns a table entry whose index lies in the band
given by the strict-inequality ranges: `[18,19)` for `0.5 < totalAcc < 0.75`,
`[10,18)` for `0.75 < totalAcc < 3`, `[0,10)` otherwise; the boundary
values `0.5`, `0.75`, `3` themselves fall into the otherwise band. -/
theorem defineNoteDuration_bands (totalAcc : ℚ) (r : Nat) (h : 0 ≤ totalAcc) :
    defineNoteDuration totalAcc r ∈ noteDuration ∧
    (∃ i : Nat, defineNoteDuration totalAcc r = noteDuration.getD i 0 ∧
      ((1/2 < totalAcc ∧ totalAcc < 3/4) → (18 ≤ i ∧ i < 19)) ∧
      ((3/4 < totalAcc ∧ totalAcc < 3) → (10 ≤ i ∧ i < 18)) ∧
      (¬ ((1/2 < totalAcc ∧ totalAcc < 3/4) ∨ (3/4 < totalAcc ∧ totalAcc < 3)) →
        i < 10)) ∧
    ((totalAcc = 1/2 ∨ totalAcc = 3/4 ∨ totalAcc = 3) →
      ∃ i : Nat, i < 10 ∧ defineNoteDuration totalAcc r = noteDuration.getD i 0) := by
  unfold defineNoteDuration
  split_ifs with h1 h2
  · obtain ⟨hlo, hhi⟩ := randomIn_bounds 18 19 r (by omega)
    refine ⟨noteDuration_getD_mem _ (by omega),
      ⟨randomIn 18 19 r, rfl, fun _ => ⟨hlo, hhi⟩,
        fun hc => absurd hc.1 (by linarith [h1.2]),
        fun hn => absurd (Or.inl h1) hn⟩, ?_⟩
    rintro (rfl | rfl | rfl)
    · exact absurd h1.1 (by norm_num)
    · exact absurd h1.2 (by norm_num)
    · exact absurd h1.2 (by norm_num)
  · obtain ⟨hlo, hhi⟩ := randomIn_bounds 10 18 r (by omega)
    refine ⟨noteDuration_getD_mem _ (by omega),
      ⟨randomIn 10 18 r, rfl,
        fun hc => absurd hc.2 (by linarith [h2.1]),
        fun _ => ⟨hlo, hhi⟩,
        fun hn => absurd (Or.inr h2) hn⟩, ?_⟩
    rintro (rfl | rfl | rfl)
    · exact absurd h2.1 (by norm_num)
    · exact absurd h2.1 (by norm_num)
    · exact absurd h2.2 (by norm_num)
  · obtain ⟨hlo, hhi⟩ := randomIn_bounds 0 10 r (by omega)
    exact ⟨noteDuration_getD_mem _ (by omega),
      ⟨randomIn 0 10 r, rfl, fun hc => absurd hc h1,
        fun hc => absurd hc h2, fun _ => hhi⟩,
      fun _ => ⟨randomIn 0 10 r, hhi, rfl⟩⟩

/-- C2 witness: `totalAcc = 1` lies in the mid band. -/
theorem defineNoteDuration_bands_witness :
    (0 : ℚ) ≤ 1 ∧
    (defineNoteDuration 1 0 ∈ noteDuration ∧
     (∃ i : Nat, defineNoteDuration 1 0 = noteDuration.getD i 0 ∧
       ((1/2 < (1 : ℚ) ∧ (1 : ℚ) < 3/4) → (18 ≤ i ∧ i < 19)) ∧
       ((3/4 < (1 : ℚ) ∧ (1 : ℚ) < 3) → (10 ≤ i ∧ i < 18)) ∧
       (¬ ((1/2 < (1 : ℚ) ∧ (1 : ℚ) < 3/4) ∨ (3/4 < (1 : ℚ) ∧ (1 : ℚ) < 3)) →
         i < 10)) ∧
     (((1 : ℚ) = 1/2 ∨ (1 : ℚ) = 3/4 ∨ (1 : ℚ) = 3) →
       ∃ i : Nat, i < 10 ∧ defineNoteDuration 1 0 = noteDuration.getD i 0)) :=
  ⟨by norm_num, defineNoteDuration_bands 1 0 (by norm_num)⟩

/-- C3 counterexample: at `totalAcc = 5/8` (strictly inside `(0.5, 0.75)`)
the duration returned is `1000`, not the claimed `1500`, for the concrete
draw `0` (in fact for every draw). -/
theorem rareBand_cex :
    defineNoteDuration (5/8 : ℚ) 0 = 1000 ∧ (1000 : Int) ≠ 1500 := by
  constructor
  · norm_num [defineNoteDuration, randomIn, noteDuration]
  · decide

/-- C3 amended: for `0.5 < totalAcc < 0.75` the random index is always `18`
(the only element of `[18,19)`) and the returned duration is always `1000`
(entry 18 of the table); the `1500` at index 19 is never reached. -/
theorem rareBand_value (totalAcc : ℚ) (r : Nat)
    (h1 : 1/2 < totalAcc) (h2 : totalAcc < 3/4) :
    randomIn 18 19 r = 18 ∧
    defineNoteDuration totalAcc r = noteDuration.getD 18 0 ∧
    defineNoteDuration totalAcc r = 1000 := by
  have hr : randomIn 18 19 r = 18 := by
    unfold randomIn
    rw [if_neg (by omega)]
    omega
  refine ⟨hr, ?_, ?_⟩ <;>
      (unfold defineNoteDuration; rw [if_pos ⟨h1, h2⟩, hr]) <;> decide

/-- C3 amended witness: concrete `totalAcc = 5/8`, draw `3`. -/
theorem rareBand_value_witness :
    (1/2 : ℚ) < 5/8 ∧ (5/8 : ℚ) < 3/4 ∧
    (randomIn 18 19 3 = 18 ∧
     defineNoteDuration (5/8 : ℚ) 3 = noteDuration.getD 18 0 ∧
     defineNoteDuration (5/8 : ℚ) 3 = 1000) :=
  ⟨by norm_num, by norm_num, rareBand_value (5/8) 3 (by norm_num) (by norm_num)⟩

/-- C4 counterexample: with melody pitch `0` (harmonic row `{2, 4, 6}`) and
the non-silencing inputs `totalAcc = totalSpin = 1`, no random outcome makes
the bass pitch equal to the row's third entry `6`: the source's
`random(0, 2)` only ever draws columns `0` and `1`. -/
theorem bassHarmonic_cex :
    ¬ ∃ rp rd : Nat,
      (defineBassNote ⟨⟨0, 3, 0, false⟩, ⟨0, 0, 0, false⟩⟩ 1 1 rp rd).bassCurrentNote.pitch
        = 6 := by
  rintro ⟨rp, rd, h⟩
  rw [defineBassNote_pitch_not_silenced _ _ _ _ _ (by norm_num)] at h
  have h2 : rp % 2 = 0 ∨ rp % 2 = 1 := by omega
  rcases h2 with h0 | h0 <;> rw [h0] at h <;> norm_num [harmonics] at h

/-- C4 amended: when not silenced, the bass pitch is the harmonic-table
entry at the melody voice's current pitch row and the random column
`rp % 2 ∈ {0, 1}` (`random(0, 2)` never draws column 2); each of the first
two row entries is a possible result; when silenced the pitch is `7`. -/
theorem bassHarmonic_coupling (s : MachineState) (totalAcc totalSpin : ℚ)
    (rp rd : Nat) :
    (¬ (totalAcc < 1/2 ∨ totalSpin < 1/2) →
      ((defineBassNote s totalAcc totalSpin rp rd).bassCurrentNote.pitch =
         (harmonics.getD s.melodyCurrentNote.pitch.toNat []).getD (rp % 2) 0 ∧
       ∀ c : Nat, c < 2 → ∃ rq : Nat,
         (defineBassNote s totalAcc totalSpin rq rd).bassCurrentNote.pitch =
           (harmonics.getD s.melodyCurrentNote.pitch.toNat []).getD c 0)) ∧
    ((totalAcc < 1/2 ∨ totalSpin < 1/2) →
      (defineBassNote s totalAcc totalSpin rp rd).bassCurrentNote.pitch = 7) := by
  constructor
  · intro hns
    refine ⟨defineBassNote_pitch_not_silenced s _ _ _ _ hns, ?_⟩
    intro c hc
    exact ⟨c, by
      rw [defineBassNote_pitch_not_silenced s _ _ _ _ hns, Nat.mod_eq_of_lt hc]⟩
  · intro h
    exact (defineBassNote_silenced s _ _ _ _ h).1

/-- C4 amended witness: melody pitch `2`, `totalAcc = totalSpin = 1`. -/
theorem bassHarmonic_coupling_witness :
    (¬ ((1 : ℚ) < 1/2 ∨ (1 : ℚ) < 1/2) →
      ((defineBassNote ⟨⟨2, 3, 0, false⟩, ⟨0, 0, 0, false⟩⟩ 1 1 0 0).bassCurrentNote.pitch =
         (harmonics.getD (⟨⟨2, 3, 0, false⟩, ⟨0, 0, 0, false⟩⟩ :
            MachineState).melodyCurrentNote.pitch.toNat []).getD (0 % 2) 0 ∧
       ∀ c : Nat, c < 2 → ∃ rq : Nat,
         (defineBassNote ⟨⟨2, 3, 0, false⟩, ⟨0, 0, 0, false⟩⟩ 1 1 rq 0).bassCurrentNote.pitch =
           (harmonics.getD (⟨⟨2, 3, 0, false⟩, ⟨0, 0, 0, false⟩⟩ :
              MachineState).melodyCurrentNote.pitch.toNat []).getD c 0)) ∧
    (((1 : ℚ) < 1/2 ∨ (1 : ℚ) < 1/2) →
      (defineBassNote ⟨⟨2, 3, 0, false⟩, ⟨0, 0, 0, false⟩⟩ 1 1 0 0).bassCurrentNote.pitch = 7) :=
  bassHarmonic_coupling ⟨⟨2, 3, 0, false⟩, ⟨0, 0, 0, false⟩⟩ 1 1 0 0

/-- C5: in `defineMelodyNote` an octave stepped below `0` is forced to `5`
and one stepped above `5` is forced to `2`; in `defineBassNote` an octave
stepped below `0` is forced to `2` and one stepped above `5` is forced to
`0` — the two per-voice wrap policies are distinct. -/
theorem octaveWrap_distinct (s : MachineState) (totalAcc totalSpin : ℚ)
    (r1 r2 rp rd rd' : Nat) :
    (s.melodyCurrentNote.octave = 0 → totalAcc < 3 →
      (defineMelodyNote s totalAcc totalSpin r1 r2 rd).melodyCurrentNote.octave = 5) ∧
    (s.melodyCurrentNote.octave = 5 → 3 ≤ totalAcc →
      (defineMelodyNote s totalAcc totalSpin r1 r2 rd).melodyCurrentNote.octave = 2) ∧
    (s.bassCurrentNote.octave = 0 → totalSpin < 3 →
      (defineBassNote s totalAcc totalSpin rp rd').bassCurrentNote.octave = 2) ∧
    (s.bassCurrentNote.octave = 5 → 3 ≤ totalSpin →
      (defineBassNote s totalAcc totalSpin rp rd').bassCurrentNote.octave = 0) := by
  refine ⟨?_, ?_, ?_, ?_⟩
  · intro ho hacc
    rw [defineMelodyNote_octave, ho]
    have h' : ¬ ((3 : ℚ) ≤ totalAcc) := not_le.mpr hacc
    simp only [melodyOctaveStep, ge_iff_le, if_pos hacc, if_neg h']
    decide
  · intro ho hacc
    rw [defineMelodyNote_octave, ho]
    have h' : ¬ (totalAcc < 3) := not_lt.mpr hacc
    simp only [melodyOctaveStep, ge_iff_le, if_pos hacc, if_neg h']
    decide
  · intro ho hsp
    rw [defineBassNote_octave, ho]
    have h' : ¬ ((3 : ℚ) ≤ totalSpin) := not_le.mpr hsp
    simp only [bassOctaveStep, ge_iff_le, if_pos hsp, if_neg h']
    decide
  · intro ho hsp
    rw [defineBassNote_octave, ho]
    have h' : ¬ (totalSpin < 3) := not_lt.mpr hsp
    simp only [bassOctaveStep, ge_iff_le, if_pos hsp, if_neg h']
    decide

/-- C5 witness: melody at octave `0` with `totalAcc = 1 < 3` wraps to `5`;
bass at octave `5` with `totalSpin = 4 ≥ 3` wraps to `0`. -/
theorem octaveWrap_distinct_witness :
    ((⟨⟨0, 0, 0, false⟩, ⟨0, 5, 0, false⟩⟩ : MachineState).melodyCurrentNote.octave = 0 →
      (1 : ℚ) < 3 →
      (defineMelodyNote ⟨⟨0, 0, 0, false⟩, ⟨0, 5, 0, false⟩⟩ 1 4 0 0 0).melodyCurrentNote.octave = 5) ∧
    ((⟨⟨0, 0, 0, false⟩, ⟨0, 5, 0, false⟩⟩ : MachineState).melodyCurrentNote.octave = 5 →
      (3 : ℚ) ≤ 1 →
      (defineMelodyNote ⟨⟨0, 0, 0, false⟩, ⟨0, 5, 0, false⟩⟩ 1 4 0 0 0).melodyCurrentNote.octave = 2) ∧
    ((⟨⟨0, 0, 0, false⟩, ⟨0, 5, 0, false⟩⟩ : MachineState).bassCurrentNote.octave = 0 →
      (4 : ℚ) < 3 →
      (defineBassNote ⟨⟨0, 0, 0, false⟩, ⟨0, 5, 0, false⟩⟩ 1 4 0 0).bassCurrentNote.octave = 2) ∧
    ((⟨⟨0, 0, 0, false⟩, ⟨0, 5, 0, false⟩⟩ : MachineState).bassCurrentNote.octave = 5 →
      (3 : ℚ) ≤ 4 →
      (defineBassNote ⟨⟨0, 0, 0, false⟩, ⟨0, 5, 0, false⟩⟩ 1 4 0 0).bassCurrentNote.octave = 0) :=
  octaveWrap_distinct ⟨⟨0, 0, 0, false⟩, ⟨0, 5, 0, false⟩⟩ 1 4 0 0 0 0 0

/-- C6: starting from melody pitch in `[0, 7]` and octave in `[0, 5]`, the
new melody pitch is in `[0, 6]` when not silenced and exactly `7` when
silenced (hence always in `[0, 7]`), and the new octave is in `[0, 5]`. -/
theorem melodyRange_invariant (s : MachineState) (totalAcc totalSpin : ℚ)
    (r1 r2 rd : Nat)
    (hp0 : 0 ≤ s.melodyCurrentNote.pitch) (hp7 : s.melodyCurrentNote.pitch ≤ 7)
    (ho0 : 0 ≤ s.melodyCurrentNote.octave) (ho5 : s.melodyCurrentNote.octave ≤ 5) :
    (¬ (totalAcc < 1/2 ∨ totalSpin < 1/2) →
      0 ≤ (defineMelodyNote s totalAcc totalSpin r1 r2 rd).melodyCurrentNote.pitch ∧
      (defineMelodyNote s totalAcc totalSpin r1 r2 rd).melodyCurrentNote.pitch ≤ 6) ∧
    ((totalAcc < 1/2 ∨ totalSpin < 1/2) →
      (defineMelodyNote s totalAcc totalSpin r1 r2 rd).melodyCurrentNote.pitch = 7) ∧
    (0 ≤ (defineMelodyNote s totalAcc totalSpin r1 r2 rd).melodyCurrentNote.pitch ∧
      (defineMelodyNote s totalAcc totalSpin r1 r2 rd).melodyCurrentNote.pitch ≤ 7) ∧
    (0 ≤ (defineMelodyNote s totalAcc totalSpin r1 r2 rd).melodyCurrentNote.octave ∧
      (defineMelodyNote s totalAcc totalSpin r1 r2 rd).melodyCurrentNote.octave ≤ 5) := by
  have hpitch : ¬ (totalAcc < 1/2 ∨ totalSpin < 1/2) →
      0 ≤ (defineMelodyNote s totalAcc totalSpin r1 r2 rd).melodyCurrentNote.pitch ∧
      (defineMelodyNote s totalAcc totalSpin r1 r2 rd).melodyCurrentNote.pitch ≤ 6 := by
    intro hns
    rw [defineMelodyNote_pitch_not_silenced s _ _ _ _ _ hns]
    exact rectifyPitch_bounds _
  refine ⟨hpitch, fun h => (defineMelodyNote_silenced s _ _ _ _ _ h).1, ?_, ?_⟩
  · by_cases h : totalAcc < 1/2 ∨ totalSpin < 1/2
    · have := (defineMelodyNote_silenced s totalAcc totalSpin r1 r2 rd h).1
      omega
    · have := hpitch h
      omega
  · rw [defineMelodyNote_octave]
    exact melodyOctaveStep_range s.melodyCurrentNote.octave totalAcc ho0 ho5

/-- C6 witness: prior note `(pitch 2, octave 3)`, `totalAcc = totalSpin = 1`. -/
theorem melodyRange_invariant_witness :
    (0 ≤ (⟨⟨2, 3, 0, false⟩, ⟨0, 0, 0, false⟩⟩ : MachineState).melodyCurrentNote.pitch ∧
     (⟨⟨2, 3, 0, false⟩, ⟨0, 0, 0, false⟩⟩ : MachineState).melodyCurrentNote.pitch ≤ 7 ∧
     0 ≤ (⟨⟨2, 3, 0, false⟩, ⟨0, 0, 0, false⟩⟩ : MachineState).melodyCurrentNote.octave ∧
     (⟨⟨2, 3, 0, false⟩, ⟨0, 0, 0, false⟩⟩ : MachineState).melodyCurrentNote.octave ≤ 5) ∧
    ((¬ ((1 : ℚ) < 1/2 ∨ (1 : ℚ) < 1/2) →
      0 ≤ (defineMelodyNote ⟨⟨2, 3, 0, false⟩, ⟨0, 0, 0, false⟩⟩ 1 1 0 0 0).melodyCurrentNote.pitch ∧
      (defineMelodyNote ⟨⟨2, 3, 0, false⟩, ⟨0, 0, 0, false⟩⟩ 1 1 0 0 0).melodyCurrentNote.pitch ≤ 6) ∧
    (((1 : ℚ) < 1/2 ∨ (1 : ℚ) < 1/2) →
      (defineMelodyNote ⟨⟨2, 3, 0, false⟩, ⟨0, 0, 0, false⟩⟩ 1 1 0 0 0).melodyCurrentNote.pitch = 7) ∧
    (0 ≤ (defineMelodyNote ⟨⟨2, 3, 0, false⟩, ⟨0, 0, 0, false⟩⟩ 1 1 0 0 0).melodyCurrentNote.pitch ∧
      (defineMelodyNote ⟨⟨2, 3, 0, false⟩, ⟨0, 0, 0, false⟩⟩ 1 1 0 0 0).melodyCurrentNote.pitch ≤ 7) ∧
    (0 ≤ (defineMelodyNote ⟨⟨2, 3, 0, false⟩, ⟨0, 0, 0, false⟩⟩ 1 1 0 0 0).melodyCurrentNote.octave ∧
      (defineMelodyNote ⟨⟨2, 3, 0, false⟩, ⟨0, 0, 0, false⟩⟩ 1 1 0 0 0).melodyCurrentNote.octave ≤ 5)) :=
  ⟨⟨by decide, by decide, by decide, by decide⟩,
   melodyRange_invariant ⟨⟨2, 3, 0, false⟩, ⟨0, 0, 0, false⟩⟩ 1 1 0 0 0
     (by decide) (by decide) (by decide) (by decide)⟩

/-- C7: every jittered pitch value reachable in `defineMelodyNote`
(prior pitch in `[0, 7]` shifted by at most one random value in `[0, 6)`,
hence in `[-5, 12]`) is rectified to a value in `[0, 6]`, and the
rectification loop satisfies (hence terminates on) exactly the source's
`while (pitch > 6) pitch -= 3` recurrence. -/
theorem pitchRectify_terminates (j : Int) (h1 : -5 ≤ j) (h2 : j ≤ 12) :
    (∀ p : Int, rectifyLoop p = if p > 6 then rectifyLoop (p - 3) else p) ∧
    0 ≤ rectifyPitch j ∧ rectifyPitch j ≤ 6 :=
  ⟨rectifyLoop_eq, rectifyPitch_bounds j⟩

/-- C7 witness: the extreme reachable jitter value `12`. -/
theorem pitchRectify_terminates_witness :
    (-5 : Int) ≤ 12 ∧ (12 : Int) ≤ 12 ∧
    ((∀ p : Int, rectifyLoop p = if p > 6 then rectifyLoop (p - 3) else p) ∧
     0 ≤ rectifyPitch 12 ∧ rectifyPitch 12 ≤ 6) :=
  ⟨by decide, by decide, pitchRectify_terminates 12 (by decide) (by decide)⟩

/-- C8 counterexample: at `totalAcc = totalSpin = 0` the near-stillness
override sets the melody duration to `50`, which is not an entry of the
duration table — the claimed unconditional table invariant fails. -/
theorem durationTable_cex :
    (defineMelodyNote ⟨⟨0, 3, 0, false⟩, ⟨0, 0, 0, false⟩⟩ 0 0 0 0 0).melodyCurrentNote.duration
      = 50 ∧
    (50 : Int) ∉ noteDuration := by
  constructor
  · exact (defineMelodyNote_silenced _ 0 0 0 0 0 (Or.inl (by norm_num))).2
  · decide

/-- C8 amended: when the near-stillness override does not fire, the melody
duration is a duration-table entry and the bass duration is a doubled
duration-table entry; when it fires, both durations are exactly `50`. -/
theorem durationTable_invariant (s : MachineState) (totalAcc totalSpin : ℚ)
    (r1 r2 rp rd rd' : Nat) :
    (¬ (totalAcc < 1/2 ∨ totalSpin < 1/2) →
      (defineMelodyNote s totalAcc totalSpin r1 r2 rd).melodyCurrentNote.duration
        ∈ noteDuration ∧
      ∃ d ∈ noteDuration,
        (defineBassNote s totalAcc totalSpin rp rd').bassCurrentNote.duration = d * 2) ∧
    ((totalAcc < 1/2 ∨ totalSpin < 1/2) →
      (defineMelodyNote s totalAcc totalSpin r1 r2 rd).melodyCurrentNote.duration = 50 ∧
      (defineBassNote s totalAcc totalSpin rp rd').bassCurrentNote.duration = 50) := by
  constructor
  · intro hns
    refine ⟨?_, ⟨defineNoteDuration totalAcc rd', defineNoteDuration_mem _ _, ?_⟩⟩
    · rw [defineMelodyNote_duration_not_silenced s _ _ _ _ _ hns]
      exact defineNoteDuration_mem _ _
    · exact defineBassNote_duration_not_silenced s _ _ _ _ hns
  · intro h
    exact ⟨(defineMelodyNote_silenced s _ _ _ _ _ h).2,
           (defineBassNote_silenced s _ _ _ _ h).2⟩

/-- C8 amended witness: `totalAcc = totalSpin = 1` (not silenced). -/
theorem durationTable_invariant_witness :
    (¬ ((1 : ℚ) < 1/2 ∨ (1 : ℚ) < 1/2) →
      (defineMelodyNote ⟨⟨2, 3, 0, false⟩, ⟨0, 0, 0, false⟩⟩ 1 1 0 0 0).melodyCurrentNote.duration
        ∈ noteDuration ∧
      ∃ d ∈ noteDuration,
        (defineBassNote ⟨⟨2, 3, 0, false⟩, ⟨0, 0, 0, false⟩⟩ 1 1 0 0).bassCurrentNote.duration
          = d * 2) ∧
    (((1 : ℚ) < 1/2 ∨ (1 : ℚ) < 1/2) →
      (defineMelodyNote ⟨⟨2, 3, 0, false⟩, ⟨0, 0, 0, false⟩⟩ 1 1 0 0 0).melodyCurrentNote.duration = 50 ∧
      (defineBassNote ⟨⟨2, 3, 0, false⟩, ⟨0, 0, 0, false⟩⟩ 1 1 0 0).bassCurrentNote.duration = 50) :=
  durationTable_invariant ⟨⟨2, 3, 0, false⟩, ⟨0, 0, 0, false⟩⟩ 1 1 0 0 0 0 0

/-- C9: `defineMelodyNote` leaves the bass voice's note (and its own
`is_playing` flag) unchanged; `defineBassNote` leaves the melody voice's
note (and its own `is_playing` flag) unchanged — each call writes only its
voice's pitch, octave and duration, and the embedded mappers are pure
state transformers (no I/O). -/
theorem mapper_frame (s : MachineState) (totalAcc totalSpin : ℚ)
    (r1 r2 rp rd rd' : Nat) :
    (defineMelodyNote s totalAcc totalSpin r1 r2 rd).bassCurrentNote = s.bassCurrentNote ∧
    (defineMelodyNote s totalAcc totalSpin r1 r2 rd).melodyCurrentNote.is_playing
      = s.melodyCurrentNote.is_playing ∧
    (defineBassNote s totalAcc totalSpin rp rd').melodyCurrentNote = s.melodyCurrentNote ∧
    (defineBassNote s totalAcc totalSpin rp rd').bassCurrentNote.is_playing
      = s.bassCurrentNote.is_playing := by
  refine ⟨?_, ?_, ?_, ?_⟩ <;>
    simp only [defineMelodyNote, defineBassNote] <;>
    first
    | rfl
    | (split_ifs <;> rfl)

/-- C10: while the near-stillness override fires it forces only pitch and
duration: the octave is still updated by the normal walk-and-wrap step
(and, starting in `[0, 5]`, it always changes), for both voices. -/
theorem octaveEvolves_whenSilenced (s : MachineState) (totalAcc totalSpin : ℚ)
    (r1 r2 rp rd rd' : Nat) (h : totalAcc < 1/2 ∨ totalSpin < 1/2) :
    ((defineMelodyNote s totalAcc totalSpin r1 r2 rd).melodyCurrentNote.octave
       = melodyOctaveStep s.melodyCurrentNote.octave totalAcc ∧
     (0 ≤ s.melodyCurrentNote.octave → s.melodyCurrentNote.octave ≤ 5 →
       (defineMelodyNote s totalAcc totalSpin r1 r2 rd).melodyCurrentNote.octave
         ≠ s.melodyCurrentNote.octave)) ∧
    ((defineBassNote s totalAcc totalSpin rp rd').bassCurrentNote.octave
       = bassOctaveStep s.bassCurrentNote.octave totalSpin ∧
     (0 ≤ s.bassCurrentNote.octave → s.bassCurrentNote.octave ≤ 5 →
       (defineBassNote s totalAcc totalSpin rp rd').bassCurrentNote.octave
         ≠ s.bassCurrentNote.octave)) := by
  refine ⟨⟨defineMelodyNote_octave s _ _ _ _ _, ?_⟩,
          ⟨defineBassNote_octave s _ _ _ _, ?_⟩⟩
  · intro h0 h5
    rw [defineMelodyNote_octave]
    exact melodyOctaveStep_ne _ _ h0 h5
  · intro h0 h5
    rw [defineBassNote_octave]
    exact bassOctaveStep_ne _ _ h0 h5

/-- C10 witness: `totalAcc = totalSpin = 0` (override fires), melody octave
`3`, bass octave `2`. -/
theorem octaveEvolves_whenSilenced_witness :
    ((defineMelodyNote ⟨⟨2, 3, 0, false⟩, ⟨0, 2, 0, false⟩⟩ 0 0 0 0 0).melodyCurrentNote.octave
       = melodyOctaveStep (⟨⟨2, 3, 0, false⟩, ⟨0, 2, 0, false⟩⟩ :
           MachineState).melodyCurrentNote.octave 0 ∧
     (0 ≤ (⟨⟨2, 3, 0, false⟩, ⟨0, 2, 0, false⟩⟩ : MachineState).melodyCurrentNote.octave →
       (⟨⟨2, 3, 0, false⟩, ⟨0, 2, 0, false⟩⟩ : MachineState).melodyCurrentNote.octave ≤ 5 →
       (defineMelodyNote ⟨⟨2, 3, 0, false⟩, ⟨0, 2, 0, false⟩⟩ 0 0 0 0 0).melodyCurrentNote.octave
         ≠ (⟨⟨2, 3, 0, false⟩, ⟨0, 2, 0, false⟩⟩ : MachineState).melodyCurrentNote.octave)) ∧
    ((defineBassNote ⟨⟨2, 3, 0, false⟩, ⟨0, 2, 0, false⟩⟩ 0 0 0 0).bassCurrentNote.octave
       = bassOctaveStep (⟨⟨2, 3, 0, false⟩, ⟨0, 2, 0, false⟩⟩ :
           MachineState).bassCurrentNote.octave 0 ∧
     (0 ≤ (⟨⟨2, 3, 0, false⟩, ⟨0, 2, 0, false⟩⟩ : MachineState).bassCurrentNote.octave →
       (⟨⟨2, 3, 0, false⟩, ⟨0, 2, 0, false⟩⟩ : MachineState).bassCurrentNote.octave ≤ 5 →
       (defineBassNote ⟨⟨2, 3, 0, false⟩, ⟨0, 2, 0, false⟩⟩ 0 0 0 0).bassCurrentNote.octave
         ≠ (⟨⟨2, 3, 0, false⟩, ⟨0, 2, 0, false⟩⟩ : MachineState).bassCurrentNote.octave)) :=
  octaveEvolves_whenSilenced ⟨⟨2, 3, 0, false⟩, ⟨0, 2, 0, false⟩⟩ 0 0 0 0 0 0 0
    (Or.inl (by norm_num))

end MpuBuzzer
